import Mathlib

/-!
Verification of the netlab port-scanning engine against its specification.

The engine lives in three variants in the repository:
* the batch scanner in src/server/services/portScanner.ts, with the function
  portScan and its inner scanPort (TCP branch and UDP branch);
* the worker-pool scanner in src/server/services/port-scanner.ts, whose
  embedded worker code defines scanTCPPort and scanUDPPort
  (duplicated verbatim in src/unnamed/part_019);
* a standalone worker file in src/unnamed/part_020, whose scanPort has its
  own TCP and UDP classification.

The SSE route and the synchronous scan route with their zod validation are in
src/unnamed/part_014.  The CSV and JSON exporter exportResults is in
src/server/services/portScanner.ts.

Each probe resolves exactly once: every event handler in the source is guarded
by an isResolved flag (or resolves a promise, which is idempotent).  We
therefore model the network behaviour of a single probe by the one event that
first resolves it, as an inductive type, and each prober as a total function
from that event to the recorded status string.  Status values are kept as the
exact String literals of the source.
-/

/- Boolean substring check, modelling the JavaScript String.prototype.includes
   used in the error handlers. -/
def isPrefixList : List Char → List Char → Bool
  | [], _ => true
  | _ :: _, [] => false
  | a :: as, b :: bs => a = b && isPrefixList as bs

def occursIn (pat : List Char) : List Char → Bool
  | [] => pat.isEmpty
  | c :: rest => isPrefixList pat (c :: rest) || occursIn pat rest

def strContains (s pat : String) : Bool := occursIn pat.data s.data

/- The first event that resolves the TCP branch of scanPort in
   src/server/services/portScanner.ts (lines 100-144): the connect handler,
   the error handler (carrying error.message), or the timeout timer. -/
inductive TCPEvent where
  | connect : TCPEvent
  | error (msg : String) : TCPEvent
  | timeout : TCPEvent

/- TCP branch of scanPort in src/server/services/portScanner.ts:
   connect sets Open; error sets Closed when error.message includes
   ECONNREFUSED and Filtered otherwise; the timeout timer sets Filtered. -/
def scanPortTCP : TCPEvent → String
  | .connect => "Open"
  | .error msg => if strContains msg "ECONNREFUSED" then "Closed" else "Filtered"
  | .timeout => "Filtered"

/- The first event that resolves the UDP branch of scanPort in
   src/server/services/portScanner.ts (lines 146-277): a datagram from the
   target address, an error in the send callback, the socket error handler
   (carrying error.code), the timeout timer (reading the responseReceived
   flag), or a synchronous throw from socket creation or bind caught by the
   surrounding try. -/
inductive UDPEvent where
  | message : UDPEvent
  | sendErr : UDPEvent
  | sockErr (code : String) : UDPEvent
  | timeout (responseReceived : Bool) : UDPEvent
  | bindThrow : UDPEvent

/- UDP branch of scanPort in src/server/services/portScanner.ts: a message
   whose rinfo.address equals the target sets Open; a send-callback error sets
   Error; the error handler switches on error.code with ECONNREFUSED giving
   Closed, EHOSTUNREACH and EACCES giving Filtered and the default also
   Filtered; the timer records Open when responseReceived and the ambiguous
   status otherwise; the catch branch records Error. -/
def scanPortUDP : UDPEvent → String
  | .message => "Open"
  | .sendErr => "Error"
  | .sockErr code =>
      if code = "ECONNREFUSED" then "Closed"
      else if code = "EHOSTUNREACH" then "Filtered"
      else if code = "EACCES" then "Filtered"
      else "Filtered"
  | .timeout responseReceived => if responseReceived then "Open" else "Open|Filtered"
  | .bindThrow => "Error"

/- The first event resolving scanTCPPort in the worker code embedded in
   src/server/services/port-scanner.ts (lines 53-75), identical to
   src/unnamed/part_019: connect, the socket timeout event, or any error
   (the handler ignores the error object entirely). -/
inductive WorkerTCPEvent where
  | connect : WorkerTCPEvent
  | timeout : WorkerTCPEvent
  | error : WorkerTCPEvent

/- scanTCPPort of the worker-pool variant: connect resolves Open, while both
   the timeout event and every error resolve Closed. -/
def scanTCPPort : WorkerTCPEvent → String
  | .connect => "Open"
  | .timeout => "Closed"
  | .error => "Closed"

/- The first event resolving scanUDPPort in the worker code embedded in
   src/server/services/port-scanner.ts (lines 77-108), identical to
   src/unnamed/part_019: a datagram response, any socket error, the timeout
   timer with no prior response, or an error in the send callback. -/
inductive WorkerUDPEvent where
  | message : WorkerUDPEvent
  | error : WorkerUDPEvent
  | timeout : WorkerUDPEvent
  | sendErr : WorkerUDPEvent

/- scanUDPPort of the worker-pool variant: only a datagram response yields
   Open; every error, the send-callback error and the silent timeout all
   yield Closed. -/
def scanUDPPort : WorkerUDPEvent → String
  | .message => "Open"
  | .error => "Closed"
  | .timeout => "Closed"
  | .sendErr => "Closed"

/- The first event resolving the TCP side of scanPort in the worker file
   src/unnamed/part_020 (lines 27-58).  The handlers there mutate a status
   variable initialised to Filtered and the close handler resolves it:
   connect gives Open, an error message containing ECONNREFUSED gives Closed,
   one containing ETIMEDOUT gives Filtered, any other error leaves the
   initial Filtered, and the timeout event gives Filtered. -/
inductive WFileTCPEvent where
  | connect : WFileTCPEvent
  | error (msg : String) : WFileTCPEvent
  | timeout : WFileTCPEvent

def wfileScanTCP : WFileTCPEvent → String
  | .connect => "Open"
  | .error msg =>
      if strContains msg "ECONNREFUSED" then "Closed"
      else if strContains msg "ETIMEDOUT" then "Filtered"
      else "Filtered"
  | .timeout => "Filtered"

/- The first event resolving the UDP side of scanPort in
   src/unnamed/part_020 (lines 59-103): the timeout timer, the socket error
   handler switching on error.code, or an error in the send callback.  That
   branch installs no message listener. -/
inductive WFileUDPEvent where
  | timeout : WFileUDPEvent
  | error (code : String) : WFileUDPEvent
  | sendErr : WFileUDPEvent

/- UDP side of scanPort in src/unnamed/part_020: silence until the timer
   yields the ambiguous status; the error switch maps ECONNREFUSED to Closed,
   EHOSTUNREACH to Filtered, EACCES to the literal Permission Denied and
   everything else to Error; a send-callback error yields Error. -/
def wfileScanUDP : WFileUDPEvent → String
  | .timeout => "Open|Filtered"
  | .error code =>
      if code = "ECONNREFUSED" then "Closed"
      else if code = "EHOSTUNREACH" then "Filtered"
      else if code = "EACCES" then "Permission Denied"
      else "Error"
  | .sendErr => "Error"

/-- C1: the TCP prober of the batch scanner classifies a successful connection
as Open, a refusal (error message containing ECONNREFUSED) as Closed, and a
timeout or any other socket error as Filtered; the worker-pool variant
scanTCPPort however classifies connect as Open but both the timeout and every
error as Closed. -/
theorem C1_tcp_probe_classification :
    scanPortTCP .connect = "Open"
    ∧ (∀ msg, strContains msg "ECONNREFUSED" = true →
        scanPortTCP (.error msg) = "Closed")
    ∧ (∀ msg, strContains msg "ECONNREFUSED" = false →
        scanPortTCP (.error msg) = "Filtered")
    ∧ scanPortTCP .timeout = "Filtered"
    ∧ scanTCPPort .connect = "Open"
    ∧ scanTCPPort .timeout = "Closed"
    ∧ scanTCPPort .error = "Closed" := by
  refine ⟨rfl, ?_, ?_, rfl, rfl, rfl, rfl⟩
  · intro msg h
    simp [scanPortTCP, h]
  · intro msg h
    simp [scanPortTCP, h]

/-- C1 witness: the classification theorem applied to a concrete refused
connection and a concrete unidentified error. -/
theorem C1_tcp_probe_classification_witness :
    scanPortTCP (.error "connect ECONNREFUSED 127.0.0.1:81") = "Closed"
    ∧ scanPortTCP (.error "connect EHOSTUNREACH 10.0.0.9:80") = "Filtered" :=
  ⟨C1_tcp_probe_classification.2.1 "connect ECONNREFUSED 127.0.0.1:81" (by decide),
   C1_tcp_probe_classification.2.2.1 "connect EHOSTUNREACH 10.0.0.9:80" (by decide)⟩

/-- C1 counterexample: the claim says every TCP probe that gets no response
within the timeout records Filtered, but the worker-pool prober scanTCPPort
records Closed on its timeout event. -/
theorem C1_worker_timeout_not_filtered :
    scanTCPPort .timeout = "Closed" ∧ ("Closed" : String) ≠ "Filtered" := by
  constructor
  · rfl
  · decide

/-- C2: the UDP prober of the batch scanner records Open for a datagram
response from the target, Closed for an ECONNREFUSED style error, the
ambiguous status for silence until the timeout, and Filtered for every other
socket error code; the worker-pool variant scanUDPPort however records Closed
both for silence until the timeout and for every socket error. -/
theorem C2_udp_probe_classification :
    scanPortUDP .message = "Open"
    ∧ scanPortUDP (.sockErr "ECONNREFUSED") = "Closed"
    ∧ scanPortUDP (.timeout false) = "Open|Filtered"
    ∧ (∀ code, code ≠ "ECONNREFUSED" → scanPortUDP (.sockErr code) = "Filtered")
    ∧ scanUDPPort .message = "Open"
    ∧ scanUDPPort .error = "Closed"
    ∧ scanUDPPort .timeout = "Closed" := by
  refine ⟨rfl, by decide, rfl, ?_, rfl, rfl, rfl⟩
  intro code h
  simp only [scanPortUDP, if_neg h]
  split <;> simp

/-- C2 witness: the classification theorem applied to the two concrete error
codes named by the claim, host unreachable and permission denied. -/
theorem C2_udp_probe_classification_witness :
    scanPortUDP (.sockErr "EHOSTUNREACH") = "Filtered"
    ∧ scanPortUDP (.sockErr "EACCES") = "Filtered" :=
  ⟨C2_udp_probe_classification.2.2.2.1 "EHOSTUNREACH" (by decide),
   C2_udp_probe_classification.2.2.2.1 "EACCES" (by decide)⟩

/-- C2 counterexample: the claim says a UDP probe with no response within the
timeout records the ambiguous status, but the worker-pool prober scanUDPPort
records Closed on its silent timeout. -/
theorem C2_worker_udp_timeout_not_ambiguous :
    scanUDPPort .timeout = "Closed" ∧ ("Closed" : String) ≠ "Open|Filtered" := by
  constructor
  · rfl
  · decide

/-- C7: every status the batch-scanner probers and the worker-pool probers can
record lies in the five-element vocabulary, and the ambiguous status is only
produced by UDP probers; the worker-file UDP prober of part_020 however also
records the literal Permission Denied (on EACCES) outside that vocabulary,
and Error on unrecognised codes. -/
theorem C7_status_vocabulary :
    (∀ ev, scanPortTCP ev ∈ ["Open", "Closed", "Filtered"])
    ∧ (∀ ev, scanPortUDP ev ∈ ["Open", "Closed", "Filtered", "Open|Filtered", "Error"])
    ∧ (∀ ev, scanTCPPort ev ∈ ["Open", "Closed"])
    ∧ (∀ ev, scanUDPPort ev ∈ ["Open", "Closed"])
    ∧ (∀ ev, wfileScanTCP ev ∈ ["Open", "Closed", "Filtered"])
    ∧ (∀ ev, wfileScanUDP ev ∈
        ["Open", "Closed", "Filtered", "Open|Filtered", "Error", "Permission Denied"])
    ∧ wfileScanUDP (.error "EACCES") = "Permission Denied" := by
  refine ⟨?_, ?_, ?_, ?_, ?_, ?_, by decide⟩
  · intro ev
    cases ev with
    | connect => simp [scanPortTCP]
    | error msg => simp only [scanPortTCP]; split <;> simp
    | timeout => simp [scanPortTCP]
  · intro ev
    cases ev with
    | message => simp [scanPortUDP]
    | sendErr => simp [scanPortUDP]
    | sockErr code =>
        simp only [scanPortUDP]
        split
        · simp
        · split
          · simp
          · split <;> simp
    | timeout r => simp only [scanPortUDP]; split <;> simp
    | bindThrow => simp [scanPortUDP]
  · intro ev; cases ev <;> simp [scanTCPPort]
  · intro ev; cases ev <;> simp [scanUDPPort]
  · intro ev
    cases ev with
    | connect => simp [wfileScanTCP]
    | error msg =>
        simp only [wfileScanTCP]
        split
        · simp
        · split <;> simp
    | timeout => simp [wfileScanTCP]
  · intro ev
    cases ev with
    | timeout => simp [wfileScanUDP]
    | error code =>
        simp only [wfileScanUDP]
        split
        · simp
        · split
          · simp
          · split <;> simp
    | sendErr => simp [wfileScanUDP]

/-- C7 counterexample: the claim restricts every recorded status to the
five-element vocabulary, but the worker-file UDP prober records the literal
Permission Denied on the EACCES error code. -/
theorem C7_permission_denied_outside_vocabulary :
    wfileScanUDP (.error "EACCES") = "Permission Denied"
    ∧ ("Permission Denied" : String) ∉
        ["Open", "Closed", "Filtered", "Open|Filtered", "Error"] := by
  constructor
  · decide
  · decide

/- Ascending-order check on a port list, adjacent-pairwise strict. -/
def sortedAsc : List Nat → Bool
  | [] => true
  | [_] => true
  | a :: b :: rest => a < b && sortedAsc (b :: rest)

/- The port sequence portScan builds in src/server/services/portScanner.ts
   (lines 84-87): Array.from with length endPort - startPort + 1 mapping
   index i to startPort + i.  A negative JavaScript length is clamped to 0 by
   ToLength, which truncated natural subtraction reproduces. -/
def portsFromRange (startPort endPort : Nat) : List Nat :=
  (List.range (endPort + 1 - startPort)).map (fun i => startPort + i)

/- The per-protocol result object of portScan: the TCP and UDP keys are
   absent until the first probe of that protocol writes an entry.  A
   JavaScript object whose keys are integer-like strings enumerates them in
   ascending numeric order, so each map is kept as its enumerated form, an
   association list with strictly ascending keys. -/
structure ScanResult where
  TCP : Option (List (Nat × String))
  UDP : Option (List (Nat × String))
deriving DecidableEq, Repr

/- Writing results.TCP[port] = status on the enumerated form of the object:
   insertion at the key position. -/
def insertAsc (p : Nat) (v : String) : List (Nat × String) → List (Nat × String)
  | [] => [(p, v)]
  | (q, w) :: rest =>
      if p < q then (p, v) :: (q, w) :: rest
      else if p = q then (p, v) :: rest
      else (q, w) :: insertAsc p v rest

/- results.X = results.X || {}; results.X[port] = status, guarded by whether
   the protocol is requested. -/
def updMap (req : Bool) (status : String) (m : Option (List (Nat × String)))
    (p : Nat) : Option (List (Nat × String)) :=
  if req then some (insertAsc p status (m.getD [])) else m

def tcpRequested (protocol : String) : Bool :=
  protocol = "TCP" || protocol = "BOTH"

def udpRequested (protocol : String) : Bool :=
  protocol = "UDP" || protocol = "BOTH"

/- Net effect of one scanPort call of src/server/services/portScanner.ts on
   the shared results object: the TCP branch runs when protocol is TCP or
   BOTH and writes scanPortTCP of the event for this port, the UDP branch
   likewise; the promise resolves only after every requested branch has
   written its entry.  The two branches touch disjoint keys, so the call acts
   componentwise. -/
def scanPortStep (protocol : String) (tcpEnv : Nat → TCPEvent)
    (udpEnv : Nat → UDPEvent) (r : ScanResult) (p : Nat) : ScanResult :=
  { TCP := updMap (tcpRequested protocol) (scanPortTCP (tcpEnv p)) r.TCP p
    UDP := updMap (udpRequested protocol) (scanPortUDP (udpEnv p)) r.UDP p }

/- Math.min of two rationals (the arguments are never NaN here). -/
def jsMin (a b : ℚ) : ℚ := if a ≤ b then a else b

/- The progress number computed after the batch starting at index i,
   Math.min(100, ((i + BATCH_SIZE) / ports.length) * 100) with
   BATCH_SIZE = 50 (src/server/services/portScanner.ts line 287). -/
def progressPct (i n : Nat) : ℚ :=
  jsMin 100 (((i : ℚ) + 50) / (n : ℚ) * 100)

/- The batch loop of portScan (lines 282-290): for (i = 0; i < ports.length;
   i += 50) take the slice [i, i+50), await all its probes, then invoke
   onProgress with the progress number.  The fuel argument only bounds the
   recursion; ports.length iterations always suffice because i grows by 50.
   The pair carries the final results object and the emitted progress
   numbers in order. -/
def portScanLoop (protocol : String) (tcpEnv : Nat → TCPEvent)
    (udpEnv : Nat → UDPEvent) (ports : List Nat) :
    Nat → Nat → ScanResult → ScanResult × List ℚ
  | 0, _, r => (r, [])
  | fuel + 1, i, r =>
      if i < ports.length then
        let batch := (ports.drop i).take 50
        let r2 := batch.foldl (scanPortStep protocol tcpEnv udpEnv) r
        let rest := portScanLoop protocol tcpEnv udpEnv ports fuel (i + 50) r2
        (rest.1, progressPct i ports.length :: rest.2)
      else (r, [])

/- portScan of src/server/services/portScanner.ts: build the port sequence
   from the range, start from the empty results object, run the batch loop. -/
def portScan (protocol : String) (tcpEnv : Nat → TCPEvent)
    (udpEnv : Nat → UDPEvent) (startPort endPort : Nat) : ScanResult × List ℚ :=
  let ports := portsFromRange startPort endPort
  portScanLoop protocol tcpEnv udpEnv ports ports.length 0 ⟨none, none⟩

/- The batches themselves, by the same loop schedule: slice [i, i+50) for
   i = 0, 50, 100, ... below ports.length. -/
def toBatchesLoop (l : List Nat) : Nat → Nat → List (List Nat)
  | 0, _ => []
  | fuel + 1, i =>
      if i < l.length then (l.drop i).take 50 :: toBatchesLoop l fuel (i + 50)
      else []

def toBatches (l : List Nat) : List (List Nat) := toBatchesLoop l l.length 0

theorem toBatchesLoop_flatten (l : List Nat) :
    ∀ fuel i, l.length - i ≤ fuel →
      (toBatchesLoop l fuel i).flatten = l.drop i := by
  intro fuel
  induction fuel with
  | zero =>
      intro i h
      have : l.length ≤ i := by omega
      simp [toBatchesLoop, List.drop_eq_nil_of_le this]
  | succ fuel ih =>
      intro i h
      by_cases hi : i < l.length
      · have h2 : l.length - (i + 50) ≤ fuel := by omega
        simp only [toBatchesLoop, if_pos hi, List.flatten_cons, ih (i + 50) h2]
        rw [← List.drop_drop]
        exact List.take_append_drop 50 (l.drop i)
      · have hle : l.length ≤ i := by omega
        simp [toBatchesLoop, if_neg hi, List.drop_eq_nil_of_le hle]

theorem toBatches_flatten (l : List Nat) : (toBatches l).flatten = l := by
  simpa using toBatchesLoop_flatten l l.length 0 (by omega)

theorem toBatchesLoop_mem (l : List Nat) :
    ∀ fuel i b, b ∈ toBatchesLoop l fuel i → 0 < b.length ∧ b.length ≤ 50 := by
  intro fuel
  induction fuel with
  | zero => intro i b hb; simp [toBatchesLoop] at hb
  | succ fuel ih =>
      intro i b hb
      by_cases hi : i < l.length
      · simp only [toBatchesLoop, if_pos hi, List.mem_cons] at hb
        rcases hb with hb | hb
        · subst hb
          constructor
          · have : 0 < (l.drop i).length := by
              rw [List.length_drop]; omega
            rw [List.length_take]; omega
          · rw [List.length_take]; omega
        · exact ih (i + 50) b hb
      · simp [toBatchesLoop, if_neg hi] at hb

theorem toBatchesLoop_length (l : List Nat) :
    ∀ fuel i, l.length - i ≤ fuel →
      (toBatchesLoop l fuel i).length = (l.length - i + 49) / 50 := by
  intro fuel
  induction fuel with
  | zero =>
      intro i h
      have : l.length - i = 0 := by omega
      simp [toBatchesLoop, this]
  | succ fuel ih =>
      intro i h
      by_cases hi : i < l.length
      · have h2 : l.length - (i + 50) ≤ fuel := by omega
        simp only [toBatchesLoop, if_pos hi, List.length_cons, ih (i + 50) h2]
        omega
      · have : l.length - i = 0 := by omega
        simp [toBatchesLoop, if_neg hi, this]

theorem toBatches_length (l : List Nat) :
    (toBatches l).length = (l.length + 49) / 50 := by
  simpa using toBatchesLoop_length l l.length 0 (by omega)

theorem portsFromRange_length (s e : Nat) :
    (portsFromRange s e).length = e + 1 - s := by
  simp [portsFromRange]

theorem sortedAsc_cons (a : Nat) (l : List Nat) :
    sortedAsc (a :: l) = true → sortedAsc l = true ∧ ∀ x ∈ l, a < x := by
  induction l generalizing a with
  | nil => intro _; simp [sortedAsc]
  | cons b rest ih =>
      intro h
      simp only [sortedAsc, Bool.and_eq_true, decide_eq_true_eq] at h
      obtain ⟨hab, hrest⟩ := h
      obtain ⟨_, hall⟩ := ih b hrest
      refine ⟨hrest, ?_⟩
      intro x hx
      rcases List.mem_cons.mp hx with hx | hx
      · omega
      · exact lt_trans hab (hall x hx)

theorem sortedAsc_shift : ∀ (m s : Nat),
    sortedAsc ((List.range m).map (fun i => s + i)) = true := by
  intro m
  induction m with
  | zero => intro s; simp [sortedAsc]
  | succ m ih =>
      intro s
      rw [List.range_succ_eq_map, List.map_cons, List.map_map]
      have hmap : ((fun i => s + i) ∘ Nat.succ) = fun i => (s + 1) + i := by
        funext i
        simp [Function.comp]
        omega
      rw [hmap]
      cases hm : (List.range m).map (fun i => (s + 1) + i) with
      | nil => simp [sortedAsc]
      | cons b rest =>
          have hb : b = s + 1 + 0 ∨ b ∈ (List.range m).map (fun i => (s + 1) + i) := by
            rw [hm]; exact Or.inr (List.mem_cons_self b rest)
          have hbmem : b ∈ (List.range m).map (fun i => (s + 1) + i) := by
            rw [hm]; exact List.mem_cons_self b rest
          obtain ⟨j, _, hj⟩ := List.mem_map.mp hbmem
          have hsb : s < b := by omega
          have := ih (s + 1)
          rw [hm] at this
          simp only [sortedAsc, Bool.and_eq_true, decide_eq_true_eq]
          exact ⟨hsb, this⟩

theorem portsFromRange_sorted (s e : Nat) :
    sortedAsc (portsFromRange s e) = true :=
  sortedAsc_shift (e + 1 - s) s

/- Concrete network environments used by closed instances below: every TCP
   probe times out, every UDP probe stays silent until its timer. -/
def te0 : Nat → TCPEvent := fun _ => .timeout

def ue0 : Nat → UDPEvent := fun _ => .timeout false

theorem portScanLoop_fst (proto : String) (te : Nat → TCPEvent)
    (ue : Nat → UDPEvent) (ports : List Nat) :
    ∀ fuel i r, ports.length - i ≤ fuel →
      (portScanLoop proto te ue ports fuel i r).1 =
        (ports.drop i).foldl (scanPortStep proto te ue) r := by
  intro fuel
  induction fuel with
  | zero =>
      intro i r h
      have hle : ports.length ≤ i := by omega
      simp [portScanLoop, List.drop_eq_nil_of_le hle]
  | succ fuel ih =>
      intro i r h
      by_cases hi : i < ports.length
      · have h2 : ports.length - (i + 50) ≤ fuel := by omega
        simp only [portScanLoop, if_pos hi]
        rw [ih (i + 50) _ h2]
        have hsplit : (ports.drop i).take 50 ++ ports.drop (i + 50) = ports.drop i := by
          rw [← List.drop_drop]
          · exact List.take_append_drop 50 (ports.drop i)
        conv_rhs => rw [← hsplit]
        rw [List.foldl_append]
      · have hle : ports.length ≤ i := by omega
        simp [portScanLoop, if_neg hi, List.drop_eq_nil_of_le hle]

theorem portScanLoop_snd (proto : String) (te : Nat → TCPEvent)
    (ue : Nat → UDPEvent) (ports : List Nat) :
    ∀ fuel i r, ports.length - i ≤ fuel →
      (portScanLoop proto te ue ports fuel i r).2 =
        (List.range ((ports.length - i + 49) / 50)).map
          (fun k => progressPct (i + 50 * k) ports.length) := by
  intro fuel
  induction fuel with
  | zero =>
      intro i r h
      have hz : ports.length - i = 0 := by omega
      simp [portScanLoop, hz]
  | succ fuel ih =>
      intro i r h
      by_cases hi : i < ports.length
      · have h2 : ports.length - (i + 50) ≤ fuel := by omega
        have hB : (ports.length - i + 49) / 50
            = (ports.length - (i + 50) + 49) / 50 + 1 := by omega
        simp only [portScanLoop, if_pos hi]
        rw [ih (i + 50) _ h2, hB, List.range_succ_eq_map, List.map_cons, List.map_map]
        have harg : ((fun k => progressPct (i + 50 * k) ports.length) ∘ Nat.succ)
            = fun k => progressPct (i + 50 + 50 * k) ports.length := by
          funext k
          simp only [Function.comp]
          congr 1
          omega
        rw [harg]
        norm_num
      · have hz : ports.length - i = 0 := by omega
        simp [portScanLoop, if_neg hi, hz]

theorem foldl_scanPortStep_TCP (proto : String) (te : Nat → TCPEvent)
    (ue : Nat → UDPEvent) :
    ∀ (ports : List Nat) (r : ScanResult),
      (ports.foldl (scanPortStep proto te ue) r).TCP =
        ports.foldl
          (fun m p => updMap (tcpRequested proto) (scanPortTCP (te p)) m p) r.TCP := by
  intro ports
  induction ports with
  | nil => intro r; rfl
  | cons p rest ih => intro r; simp only [List.foldl_cons]; rw [ih]; rfl

theorem foldl_scanPortStep_UDP (proto : String) (te : Nat → TCPEvent)
    (ue : Nat → UDPEvent) :
    ∀ (ports : List Nat) (r : ScanResult),
      (ports.foldl (scanPortStep proto te ue) r).UDP =
        ports.foldl
          (fun m p => updMap (udpRequested proto) (scanPortUDP (ue p)) m p) r.UDP := by
  intro ports
  induction ports with
  | nil => intro r; rfl
  | cons p rest ih => intro r; simp only [List.foldl_cons]; rw [ih]; rfl

theorem insertAsc_append (p : Nat) (v : String) :
    ∀ m : List (Nat × String), (∀ q ∈ m.map Prod.fst, q < p) →
      insertAsc p v m = m ++ [(p, v)] := by
  intro m
  induction m with
  | nil => intro _; rfl
  | cons e rest ih =>
      intro h
      have hqp : e.1 < p := h e.1 (by simp)
      obtain ⟨q, w⟩ := e
      simp only [insertAsc, if_neg (by omega : ¬ p < q), if_neg (by omega : ¬ p = q),
        List.cons_append, List.cons.injEq, true_and]
      exact ih (fun x hx => h x (by simp [hx]))

theorem foldl_updMap_false (f : Nat → String) :
    ∀ (ports : List Nat) (m : Option (List (Nat × String))),
      ports.foldl (fun acc p => updMap false (f p) acc p) m = m := by
  intro ports
  induction ports with
  | nil => intro m; rfl
  | cons p rest ih => intro m; simp only [List.foldl_cons, updMap]; simp [ih]

theorem foldl_updMap_true (f : Nat → String) :
    ∀ (ports : List Nat) (m : List (Nat × String)),
      sortedAsc ports = true →
      (∀ q ∈ m.map Prod.fst, ∀ p ∈ ports, q < p) →
      ports.foldl (fun acc p => updMap true (f p) acc p) (some m) =
        some (m ++ ports.map (fun p => (p, f p))) := by
  intro ports
  induction ports with
  | nil => intro m _ _; simp
  | cons p rest ih =>
      intro m hsort hlt
      obtain ⟨hsrest, hall⟩ := sortedAsc_cons p rest hsort
      have hlt2 : ∀ q ∈ (m ++ [(p, f p)]).map Prod.fst, ∀ x ∈ rest, q < x := by
        intro q hq x hx
        simp only [List.map_append, List.mem_append, List.map_cons, List.map_nil,
          List.mem_singleton] at hq
        rcases hq with hq | hq
        · exact hlt q hq x (by simp [hx])
        · subst hq
          exact hall x hx
      have hstep : updMap true (f p) (some m) p = some (m ++ [(p, f p)]) := by
        simp [updMap, insertAsc_append p (f p) m (fun q hq => hlt q hq p (by simp))]
      simp only [List.foldl_cons]
      rw [hstep, ih (m ++ [(p, f p)]) hsrest hlt2]
      simp

theorem portsFromRange_nodup (s e : Nat) : (portsFromRange s e).Nodup :=
  List.Nodup.map (fun a b h => by omega) (List.nodup_range _)

theorem portsFromRange_ne_nil (s e : Nat) (h : s ≤ e) : portsFromRange s e ≠ [] := by
  have : (portsFromRange s e).length = e + 1 - s := portsFromRange_length s e
  intro hnil
  rw [hnil] at this
  simp at this
  omega

theorem portScan_TCP_char (proto : String) (te : Nat → TCPEvent)
    (ue : Nat → UDPEvent) (s e : Nat) (hse : s ≤ e) :
    (portScan proto te ue s e).1.TCP =
      if tcpRequested proto = true then
        some ((portsFromRange s e).map (fun p => (p, scanPortTCP (te p))))
      else none := by
  have hloop := portScanLoop_fst proto te ue (portsFromRange s e)
      (portsFromRange s e).length 0 ⟨none, none⟩ (by omega)
  simp only [portScan]
  rw [hloop, List.drop_zero, foldl_scanPortStep_TCP]
  cases hreq : tcpRequested proto with
  | false => simpa using foldl_updMap_false _ (portsFromRange s e) none
  | true =>
      cases hp : portsFromRange s e with
      | nil => exact absurd hp (portsFromRange_ne_nil s e hse)
      | cons p rest =>
          have hsort : sortedAsc (p :: rest) = true := by
            rw [← hp]; exact portsFromRange_sorted s e
          obtain ⟨hsrest, hall⟩ := sortedAsc_cons p rest hsort
          have hlt2 : ∀ q ∈ ([(p, scanPortTCP (te p))] : List (Nat × String)).map Prod.fst,
              ∀ x ∈ rest, q < x := by
            intro q hq x hx
            simp only [List.map_cons, List.map_nil, List.mem_singleton] at hq
            subst hq
            exact hall x hx
          have hstep : updMap true (scanPortTCP (te p)) none p
              = some [(p, scanPortTCP (te p))] := by
            simp [updMap, insertAsc]
          simp only [List.foldl_cons]
          rw [hstep, foldl_updMap_true (fun q => scanPortTCP (te q)) rest
            [(p, scanPortTCP (te p))] hsrest hlt2]
          simp

theorem portScan_UDP_char (proto : String) (te : Nat → TCPEvent)
    (ue : Nat → UDPEvent) (s e : Nat) (hse : s ≤ e) :
    (portScan proto te ue s e).1.UDP =
      if udpRequested proto = true then
        some ((portsFromRange s e).map (fun p => (p, scanPortUDP (ue p))))
      else none := by
  have hloop := portScanLoop_fst proto te ue (portsFromRange s e)
      (portsFromRange s e).length 0 ⟨none, none⟩ (by omega)
  simp only [portScan]
  rw [hloop, List.drop_zero, foldl_scanPortStep_UDP]
  cases hreq : udpRequested proto with
  | false => simpa using foldl_updMap_false _ (portsFromRange s e) none
  | true =>
      cases hp : portsFromRange s e with
      | nil => exact absurd hp (portsFromRange_ne_nil s e hse)
      | cons p rest =>
          have hsort : sortedAsc (p :: rest) = true := by
            rw [← hp]; exact portsFromRange_sorted s e
          obtain ⟨hsrest, hall⟩ := sortedAsc_cons p rest hsort
          have hlt2 : ∀ q ∈ ([(p, scanPortUDP (ue p))] : List (Nat × String)).map Prod.fst,
              ∀ x ∈ rest, q < x := by
            intro q hq x hx
            simp only [List.map_cons, List.map_nil, List.mem_singleton] at hq
            subst hq
            exact hall x hx
          have hstep : updMap true (scanPortUDP (ue p)) none p
              = some [(p, scanPortUDP (ue p))] := by
            simp [updMap, insertAsc]
          simp only [List.foldl_cons]
          rw [hstep, foldl_updMap_true (fun q => scanPortUDP (ue q)) rest
            [(p, scanPortUDP (ue p))] hsrest hlt2]
          simp

/-- C3: the batch scheduler partitions the port sequence into consecutive
batches of at most 50 ports whose concatenation is exactly the ascending port
sequence, every batch is non-empty, and for the range 1..100 exactly two
batches are scheduled and exactly two progress events are emitted before the
terminal one. -/
theorem C3_batch_partition :
    (∀ l : List Nat, (toBatches l).flatten = l)
    ∧ (∀ (l : List Nat) (b : List Nat), b ∈ toBatches l → 0 < b.length ∧ b.length ≤ 50)
    ∧ (∀ s e, sortedAsc (portsFromRange s e) = true)
    ∧ (toBatches (portsFromRange 1 100)).length = 2
    ∧ ∀ proto te ue, ((portScan proto te ue 1 100).2).length = 2 := by
  refine ⟨toBatches_flatten, ?_, portsFromRange_sorted, ?_, ?_⟩
  · intro l b hb
    exact toBatchesLoop_mem l l.length 0 b hb
  · rw [toBatches_length, portsFromRange_length]
  · intro proto te ue
    have hsnd := portScanLoop_snd proto te ue (portsFromRange 1 100)
        (portsFromRange 1 100).length 0 ⟨none, none⟩ (by omega)
    simp only [portScan]
    rw [hsnd]
    simp [portsFromRange_length]

/-- C3 witness: partition facts instantiated on the concrete list with ports
1 and 2, whose single batch has length 2. -/
theorem C3_batch_partition_witness :
    0 < ([1, 2] : List Nat).length ∧ ([1, 2] : List Nat).length ≤ 50 :=
  C3_batch_partition.2.1 [1, 2] [1, 2] (by decide)

/-- C4: for every network behaviour and every non-empty range, the final
result of the batch scanner holds exactly one status entry per port for each
requested protocol and no entry for a protocol that was not requested; the
entry is the classification of the probe event for that port, so a probe that
records Error (for example a UDP send failure) still leaves every other entry
in place — no outcome aborts the batch or the scan. -/
theorem C4_scan_completeness (proto : String) (te : Nat → TCPEvent)
    (ue : Nat → UDPEvent) (s e : Nat) (hse : s ≤ e) :
    let ports := portsFromRange s e
    let r := (portScan proto te ue s e).1
    (tcpRequested proto = true →
        r.TCP = some (ports.map (fun p => (p, scanPortTCP (te p)))))
    ∧ (tcpRequested proto = false → r.TCP = none)
    ∧ (udpRequested proto = true →
        r.UDP = some (ports.map (fun p => (p, scanPortUDP (ue p)))))
    ∧ (udpRequested proto = false → r.UDP = none)
    ∧ (tcpRequested proto = true → ∀ p ∈ ports,
        ((r.TCP.getD []).map Prod.fst).count p = 1)
    ∧ (udpRequested proto = true → ∀ p ∈ ports,
        ((r.UDP.getD []).map Prod.fst).count p = 1) := by
  intro ports r
  have htcp := portScan_TCP_char proto te ue s e hse
  have hudp := portScan_UDP_char proto te ue s e hse
  refine ⟨?_, ?_, ?_, ?_, ?_, ?_⟩
  · intro hreq
    rw [show r.TCP = (portScan proto te ue s e).1.TCP from rfl, htcp, if_pos hreq]
  · intro hreq
    rw [show r.TCP = (portScan proto te ue s e).1.TCP from rfl, htcp, hreq]
    simp
  · intro hreq
    rw [show r.UDP = (portScan proto te ue s e).1.UDP from rfl, hudp, if_pos hreq]
  · intro hreq
    rw [show r.UDP = (portScan proto te ue s e).1.UDP from rfl, hudp, hreq]
    simp
  · intro hreq p hp
    rw [show r.TCP = (portScan proto te ue s e).1.TCP from rfl, htcp, if_pos hreq]
    have hkeys : ((ports.map (fun p => (p, scanPortTCP (te p)))).map Prod.fst) = ports := by
      rw [List.map_map]
      rw [show (Prod.fst ∘ fun p : Nat => (p, scanPortTCP (te p))) = id from rfl, List.map_id]
    simp only [Option.getD_some, hkeys]
    exact List.count_eq_one_of_mem (portsFromRange_nodup s e) hp
  · intro hreq p hp
    rw [show r.UDP = (portScan proto te ue s e).1.UDP from rfl, hudp, if_pos hreq]
    have hkeys : ((ports.map (fun p => (p, scanPortUDP (ue p)))).map Prod.fst) = ports := by
      rw [List.map_map]
      rw [show (Prod.fst ∘ fun p : Nat => (p, scanPortUDP (ue p))) = id from rfl, List.map_id]
    simp only [Option.getD_some, hkeys]
    exact List.count_eq_one_of_mem (portsFromRange_nodup s e) hp

/-- C4 witness: the completeness theorem applied to a BOTH scan of the range
80..81 against the all-silent network. -/
theorem C4_scan_completeness_witness :
    let ports := portsFromRange 80 81
    let r := (portScan "BOTH" te0 ue0 80 81).1
    (tcpRequested "BOTH" = true →
        r.TCP = some (ports.map (fun p => (p, scanPortTCP (te0 p)))))
    ∧ (tcpRequested "BOTH" = false → r.TCP = none)
    ∧ (udpRequested "BOTH" = true →
        r.UDP = some (ports.map (fun p => (p, scanPortUDP (ue0 p)))))
    ∧ (udpRequested "BOTH" = false → r.UDP = none)
    ∧ (tcpRequested "BOTH" = true → ∀ p ∈ ports,
        ((r.TCP.getD []).map Prod.fst).count p = 1)
    ∧ (udpRequested "BOTH" = true → ∀ p ∈ ports,
        ((r.UDP.getD []).map Prod.fst).count p = 1) :=
  C4_scan_completeness "BOTH" te0 ue0 80 81 (by decide)

/-- C10: calling the batch scanner directly with an inverted range builds an
empty port sequence (the negative JavaScript array length is clamped to
zero), issues zero probes, emits zero progress events, and returns the empty
result object with neither a TCP nor a UDP key. -/
theorem C10_inverted_range (proto : String) (te : Nat → TCPEvent)
    (ue : Nat → UDPEvent) (s e : Nat) (h : e < s) :
    portsFromRange s e = []
    ∧ (portScan proto te ue s e).1 = ⟨none, none⟩
    ∧ (portScan proto te ue s e).2 = [] := by
  have hz : e + 1 - s = 0 := by omega
  have hports : portsFromRange s e = [] := by
    simp [portsFromRange, hz]
  refine ⟨hports, ?_, ?_⟩ <;> simp [portScan, hports, portScanLoop]

/-- C10 witness: the inverted range 5..3 produces no ports, no probes, no
progress events, and a result object without TCP or UDP keys. -/
theorem C10_inverted_range_witness :
    portsFromRange 5 3 = []
    ∧ (portScan "TCP" te0 ue0 5 3).1 = ⟨none, none⟩
    ∧ (portScan "TCP" te0 ue0 5 3).2 = [] :=
  C10_inverted_range "TCP" te0 ue0 5 3 (by decide)

theorem progressPct_le_100 (i n : Nat) : progressPct i n ≤ 100 := by
  unfold progressPct jsMin
  split
  · exact le_refl 100
  · next h => exact le_of_lt (lt_of_not_le h)

/- One progress record of the SSE route in src/unnamed/part_014 (the second
   router, lines 159-201).  The route builds each record from a scanned
   counter it increments itself, total = ports.length, its first callback
   argument stored in the currentPort field, and a status marker.  The batch
   scanner passes its progress number as the first callback argument, so the
   currentPort field receives a rational.  Every event also carries a result
   snapshot, which no claim below mentions, so the record omits it. -/
structure ProgressRecord where
  scanned : Nat
  total : Nat
  currentPort : ℚ
  status : String
deriving DecidableEq, Repr

/- The scanning events produced by successive onProgress callbacks: one per
   received progress number, with the scanned counter incremented first. -/
def scanningEvents (total : Nat) : List ℚ → Nat → List ProgressRecord
  | [], _ => []
  | q :: rest, scanned =>
      { scanned := scanned + 1, total := total, currentPort := q, status := "scanning" }
        :: scanningEvents total rest (scanned + 1)

/- The full event stream of one ride through the route handler: the scanning
   events, then the terminal event with scanned = total, currentPort =
   ports[total - 1] and status completed. -/
def streamEvents (proto : String) (te : Nat → TCPEvent) (ue : Nat → UDPEvent)
    (s e : Nat) : List ProgressRecord :=
  let ports := portsFromRange s e
  scanningEvents ports.length ((portScan proto te ue s e).2) 0
    ++ [{ scanned := ports.length, total := ports.length,
          currentPort := ((ports.getLast?.getD 0 : Nat) : ℚ), status := "completed" }]

theorem portScan_snd (proto : String) (te : Nat → TCPEvent) (ue : Nat → UDPEvent)
    (s e : Nat) :
    (portScan proto te ue s e).2 =
      (List.range (((portsFromRange s e).length + 49) / 50)).map
        (fun k => progressPct (50 * k) (portsFromRange s e).length) := by
  have h := portScanLoop_snd proto te ue (portsFromRange s e)
      (portsFromRange s e).length 0 ⟨none, none⟩ (by omega)
  simp only [portScan]
  rw [h]
  norm_num

theorem scanningEvents_map (total : Nat) (g : Nat → ℚ) :
    ∀ (B c : Nat),
      scanningEvents total ((List.range B).map g) c =
        (List.range B).map (fun k =>
          { scanned := c + (k + 1), total := total, currentPort := g k,
            status := "scanning" }) := by
  intro B
  induction B generalizing g with
  | zero => intro c; simp [scanningEvents]
  | succ B ih =>
      intro c
      rw [List.range_succ_eq_map, List.map_cons, List.map_cons, List.map_map,
        List.map_map]
      simp only [scanningEvents]
      congr 1
      rw [ih (g ∘ Nat.succ) (c + 1)]
      apply List.map_congr_left
      intro k _
      simp only [Function.comp, ProgressRecord.mk.injEq, and_true, true_and]
      omega

theorem streamEvents_char (proto : String) (te : Nat → TCPEvent)
    (ue : Nat → UDPEvent) (s e : Nat) :
    streamEvents proto te ue s e =
      ((List.range (((portsFromRange s e).length + 49) / 50)).map fun k =>
        { scanned := k + 1, total := (portsFromRange s e).length,
          currentPort := progressPct (50 * k) (portsFromRange s e).length,
          status := "scanning" })
      ++ [{ scanned := (portsFromRange s e).length,
            total := (portsFromRange s e).length,
            currentPort := (((portsFromRange s e).getLast?.getD 0 : Nat) : ℚ),
            status := "completed" }] := by
  simp only [streamEvents, portScan_snd, scanningEvents_map]
  simp

theorem portsFromRange_getLast (s e : Nat) (hse : s ≤ e) :
    (portsFromRange s e).getLast?.getD 0 = e := by
  have hm : e + 1 - s = (e - s) + 1 := by omega
  unfold portsFromRange
  rw [hm, List.range_succ, List.map_append, List.getLast?_append]
  simp
  omega

/-- C5: across the events of one streaming scan the scanned counter is
monotonically non-decreasing, the progress percentage the scanner reports
never exceeds 100, and the terminal event has scanned = total and status
completed; but scanned = total also holds on the last scanning event whenever
the batch count equals the port count (a single-port scan), so it does not
hold exactly on the terminal event — for two or more ports every non-terminal
event satisfies scanned < total. -/
theorem C5_progress_monotonic (proto : String) (te : Nat → TCPEvent)
    (ue : Nat → UDPEvent) (s e : Nat) (hse : s ≤ e) :
    List.Chain' (fun a b => a.scanned ≤ b.scanned) (streamEvents proto te ue s e)
    ∧ (∀ q ∈ (portScan proto te ue s e).2, q ≤ 100)
    ∧ (streamEvents proto te ue s e).getLast? =
        some { scanned := (portsFromRange s e).length,
               total := (portsFromRange s e).length,
               currentPort := (e : ℚ), status := "completed" }
    ∧ (2 ≤ (portsFromRange s e).length →
        ∀ ev ∈ (streamEvents proto te ue s e).dropLast, ev.scanned < ev.total) := by
  have hn1 : 1 ≤ (portsFromRange s e).length := by
    rw [portsFromRange_length]; omega
  refine ⟨?_, ?_, ?_, ?_⟩
  · rw [streamEvents_char]
    refine List.chain'_append.mpr ⟨?_, List.chain'_singleton _, ?_⟩
    · rw [List.chain'_map]
      exact ((List.pairwise_lt_range _).imp (fun h => by simp; omega)).chain'
    · intro x hx y hy
      simp only [List.head?_cons, Option.mem_def, Option.some.injEq] at hy
      subst hy
      have hmem := List.mem_of_mem_getLast? hx
      obtain ⟨k, hk, rfl⟩ := List.mem_map.mp hmem
      rw [List.mem_range] at hk
      simp only []
      omega
  · rw [portScan_snd]
    intro q hq
    obtain ⟨k, _, rfl⟩ := List.mem_map.mp hq
    exact progressPct_le_100 _ _
  · rw [streamEvents_char, portsFromRange_getLast s e hse]
    simp
  · intro h2 ev hev
    rw [streamEvents_char] at hev
    simp only [List.dropLast_concat] at hev
    obtain ⟨k, hk, rfl⟩ := List.mem_map.mp hev
    rw [List.mem_range] at hk
    simp only []
    omega

/-- C5 witness: the monotonicity theorem applied to a streaming TCP scan of
the range 1..2 against the all-silent network. -/
theorem C5_progress_monotonic_witness :
    List.Chain' (fun a b => a.scanned ≤ b.scanned) (streamEvents "TCP" te0 ue0 1 2)
    ∧ (∀ q ∈ (portScan "TCP" te0 ue0 1 2).2, q ≤ 100)
    ∧ (streamEvents "TCP" te0 ue0 1 2).getLast? =
        some { scanned := (portsFromRange 1 2).length,
               total := (portsFromRange 1 2).length,
               currentPort := ((2 : Nat) : ℚ), status := "completed" }
    ∧ (2 ≤ (portsFromRange 1 2).length →
        ∀ ev ∈ (streamEvents "TCP" te0 ue0 1 2).dropLast, ev.scanned < ev.total) :=
  C5_progress_monotonic "TCP" te0 ue0 1 2 (by decide)

/-- C5 counterexample: on the single-port scan of 80..80 the first emitted
event already has scanned = total = 1 yet carries status scanning, and a
second, terminal event follows — so scanned = total does not hold exactly on
the terminal event. -/
theorem C5_single_port_pre_terminal :
    (streamEvents "TCP" te0 ue0 80 80).head? =
      some { scanned := 1, total := 1, currentPort := (100 : ℚ), status := "scanning" }
    ∧ (streamEvents "TCP" te0 ue0 80 80).length = 2 := by
  have hlen : (portsFromRange 80 80).length = 1 := by
    rw [portsFromRange_length]
  have hpct : progressPct (50 * 0) 1 = 100 := by
    unfold progressPct jsMin
    norm_num
  rw [streamEvents_char]
  rw [hlen]
  constructor
  · norm_num
    exact ⟨0, by decide, rfl, hpct⟩
  · norm_num

/-- C8: every non-terminal progress record stores in its currentPort field
the capped percentage the batch scanner passed to onProgress, not the highest
port of the just-completed batch; only the terminal record carries a port
number there, namely the highest port of the whole range. -/
theorem C8_currentport_is_percentage (proto : String) (te : Nat → TCPEvent)
    (ue : Nat → UDPEvent) (s e : Nat) (hse : s ≤ e) :
    streamEvents proto te ue s e =
      ((List.range (((portsFromRange s e).length + 49) / 50)).map fun k =>
        { scanned := k + 1, total := (portsFromRange s e).length,
          currentPort := progressPct (50 * k) (portsFromRange s e).length,
          status := "scanning" })
      ++ [{ scanned := (portsFromRange s e).length,
            total := (portsFromRange s e).length,
            currentPort := (e : ℚ), status := "completed" }] := by
  rw [streamEvents_char, portsFromRange_getLast s e hse]

/-- C8 witness: the characterization applied to the streaming TCP scan of
1..100 against the all-silent network. -/
theorem C8_currentport_is_percentage_witness :
    streamEvents "TCP" te0 ue0 1 100 =
      ((List.range (((portsFromRange 1 100).length + 49) / 50)).map fun k =>
        { scanned := k + 1, total := (portsFromRange 1 100).length,
          currentPort := progressPct (50 * k) (portsFromRange 1 100).length,
          status := "scanning" })
      ++ [{ scanned := (portsFromRange 1 100).length,
            total := (portsFromRange 1 100).length,
            currentPort := ((100 : Nat) : ℚ), status := "completed" }] :=
  C8_currentport_is_percentage "TCP" te0 ue0 1 100 (by decide)

/-- C8 counterexample: scanning 2..3 runs one batch whose highest probed port
is 3, yet the progress record emitted after that batch carries currentPort
100 (the capped percentage), not 3. -/
theorem C8_currentport_not_batch_max :
    (streamEvents "TCP" te0 ue0 2 3).head? =
      some { scanned := 1, total := 2, currentPort := (100 : ℚ), status := "scanning" }
    ∧ toBatches (portsFromRange 2 3) = [[2, 3]]
    ∧ (100 : ℚ) ≠ ((3 : Nat) : ℚ) := by
  refine ⟨?_, by decide, by norm_num⟩
  have hlen : (portsFromRange 2 3).length = 2 := by
    rw [portsFromRange_length]
  have hpct : progressPct (50 * 0) 2 = 100 := by
    unfold progressPct jsMin
    norm_num
  rw [streamEvents_char, hlen]
  norm_num
  exact ⟨0, by decide, rfl, hpct⟩

/- One scan request as the routes of src/unnamed/part_014 see it after query
   or body extraction.  The targetIp string only matters through the verdict
   of the zod z.string().ip() validator, which is library code, so the model
   carries that Boolean verdict.  startPort and endPort are the parsed
   integers, portList the optional comma-separated list of the streaming
   route, timeout the optional parsed integer. -/
structure ScanQuery where
  ipOk : Bool
  startPort : Int
  endPort : Int
  portList : Option (List Int)
  protocol : String
  timeout : Option Int

def portInBounds (p : Int) : Bool := decide (1 ≤ p) && decide (p ≤ 65535)

def protocolTagOk (p : String) : Bool := p = "TCP" || p = "UDP" || p = "BOTH"

def timeoutOk : Option Int → Bool
  | none => true
  | some t => decide (100 ≤ t) && decide (t ≤ 10000)

/- portScanSchema of src/unnamed/part_014: both range bounds integers in
   1..65535, start at most end, protocol one of the three tags, timeout
   optional in 100..10000, targetIp a valid IP literal. -/
def schemaOk (q : ScanQuery) : Bool :=
  q.ipOk && portInBounds q.startPort && portInBounds q.endPort
    && decide (q.startPort ≤ q.endPort) && protocolTagOk q.protocol
    && timeoutOk q.timeout

/- The port sequence the scanner derives from an integer range, with the
   negative JavaScript array length clamped to zero by ToLength. -/
def portsZ (s e : Int) : List Int :=
  (List.range (e + 1 - s).toNat).map (fun k => s + k)

/- Math.min and Math.max over a spread port list; the empty case (Infinity in
   JavaScript) is never reached by the claims below. -/
def listMin : List Int → Int
  | [] => 0
  | x :: xs => xs.foldl min x

def listMax : List Int → Int
  | [] => 0
  | x :: xs => xs.foldl max x

inductive ScanOutcome where
  | rejected : ScanOutcome
  | scans (ports : List Int) : ScanOutcome
deriving DecidableEq, Repr

/- GET /stream of the second router in src/unnamed/part_014 (lines 129-153):
   when portList is present the handler builds the ports and the range
   [min, max] directly, never consulting portScanSchema, and invokes the
   scanner, which re-derives its port sequence from that range; only the
   range branch parses the query through the schema, whose failure is caught
   and answered with status 400 before any probing. -/
def streamScanOutcome (q : ScanQuery) : ScanOutcome :=
  match q.portList with
  | some pl => .scans (portsZ (listMin pl) (listMax pl))
  | none =>
      if schemaOk q then .scans (portsZ q.startPort q.endPort) else .rejected

/- POST /scan of both routers and GET /stream of the first router: the
   payload always goes through portScanSchema before portScan is invoked. -/
def syncScanOutcome (q : ScanQuery) : ScanOutcome :=
  if schemaOk q then .scans (portsZ q.startPort q.endPort) else .rejected

/-- C6: a malformed range-mode request — invalid target IP, inverted range,
out-of-bounds port, bad protocol tag or out-of-bounds timeout — is rejected
by both the synchronous and the streaming handler before any probe is
issued; the streaming portList branch however performs no validation at all,
so the claim fails for port-list mode. -/
theorem C6_range_mode_validation (q : ScanQuery)
    (hq : q.ipOk = false ∨ q.endPort < q.startPort
      ∨ portInBounds q.startPort = false ∨ portInBounds q.endPort = false
      ∨ protocolTagOk q.protocol = false ∨ timeoutOk q.timeout = false)
    (hpl : q.portList = none) :
    streamScanOutcome q = .rejected ∧ syncScanOutcome q = .rejected := by
  have hschema : schemaOk q = false := by
    unfold schemaOk
    rcases hq with h | h | h | h | h | h
    · simp [h]
    · have hd : decide (q.startPort ≤ q.endPort) = false := by
        simp
        omega
      simp [hd]
    · simp [h]
    · simp [h]
    · simp [h]
    · simp [h]
  unfold streamScanOutcome syncScanOutcome
  rw [hpl]
  simp [hschema]

/- A malformed request in portList mode: the target IP is invalid and the
   single listed port lies outside 1..65535. -/
def badQuery : ScanQuery :=
  { ipOk := false, startPort := 1, endPort := 1, portList := some [70000],
    protocol := "TCP", timeout := none }

/- An inverted-range request in range mode. -/
def invQuery : ScanQuery :=
  { ipOk := true, startPort := 100, endPort := 1, portList := none,
    protocol := "TCP", timeout := none }

/-- C6 witness: the validation theorem applied to the inverted range 100..1,
rejected by both handlers. -/
theorem C6_range_mode_validation_witness :
    streamScanOutcome invQuery = .rejected ∧ syncScanOutcome invQuery = .rejected :=
  C6_range_mode_validation invQuery (Or.inr (Or.inl (by decide))) rfl

/-- C6 counterexample: a streaming request with an invalid target IP and the
out-of-bounds port 70000 in portList mode is not rejected — the handler
issues a probe of port 70000. -/
theorem C6_portlist_not_validated :
    badQuery.ipOk = false
    ∧ streamScanOutcome badQuery = .scans [(70000 : Int)]
    ∧ ((70000 : Int) ≤ 65535) = False := by
  refine ⟨rfl, ?_, by decide⟩
  decide

/- Decimal rendering of a port number, as JavaScript renders integer object
   keys and template-string interpolations: most significant digit first, no
   leading zeros.  The fuel only bounds the recursion; n + 1 always
   suffices. -/
def digitChar (d : Nat) : Char := Char.ofNat (48 + d)

def natToDecAux : Nat → Nat → List Char
  | 0, _ => []
  | fuel + 1, n =>
      if n < 10 then [digitChar n]
      else natToDecAux fuel (n / 10) ++ [digitChar (n % 10)]

def natToDec (n : Nat) : String := ⟨natToDecAux (n + 1) n⟩

/- Decimal parsing, as JSON.parse reads the rendered key back (the claims
   only need it on rendered keys). -/
def decDigit? (c : Char) : Option Nat :=
  if 48 ≤ c.toNat ∧ c.toNat ≤ 57 then some (c.toNat - 48) else none

def decToNatAux : List Char → Nat → Option Nat
  | [], acc => some acc
  | c :: cs, acc =>
      match decDigit? c with
      | some d => decToNatAux cs (acc * 10 + d)
      | none => none

def decToNat? (s : String) : Option Nat :=
  match s.data with
  | [] => none
  | l => decToNatAux l 0

theorem decDigit_digitChar (d : Nat) (hd : d < 10) :
    decDigit? (digitChar d) = some d := by
  interval_cases d <;> decide

theorem decToNatAux_append (l1 l2 : List Char) :
    ∀ acc, decToNatAux (l1 ++ l2) acc =
      match decToNatAux l1 acc with
      | some m => decToNatAux l2 m
      | none => none := by
  induction l1 with
  | nil => intro acc; simp [decToNatAux]
  | cons c cs ih =>
      intro acc
      simp only [List.cons_append, decToNatAux]
      cases hc : decDigit? c with
      | some d => simp only []; exact ih (acc * 10 + d)
      | none => simp only []

theorem natToDecAux_ne_nil : ∀ fuel n, 0 < fuel → natToDecAux fuel n ≠ [] := by
  intro fuel n h
  match fuel with
  | fuel + 1 =>
      unfold natToDecAux
      split
      · simp
      · simp

theorem decToNatAux_natToDecAux :
    ∀ fuel n acc, n < fuel →
      decToNatAux (natToDecAux fuel n) acc =
        some (acc * 10 ^ (natToDecAux fuel n).length + n) := by
  intro fuel
  induction fuel with
  | zero => intro n acc h; omega
  | succ fuel ih =>
      intro n acc h
      by_cases h10 : n < 10
      · simp only [natToDecAux, if_pos h10, decToNatAux, decDigit_digitChar n h10,
          List.length_cons, List.length_nil]
        norm_num
      · have hdiv : n / 10 < fuel := by
          have h1 : n / 10 < n := Nat.div_lt_self (by omega) (by omega)
          omega
        simp only [natToDecAux, if_neg h10]
        rw [decToNatAux_append]
        rw [ih (n / 10) acc hdiv]
        simp only [decToNatAux, decDigit_digitChar (n % 10) (by omega)]
        rw [List.length_append]
        simp only [List.length_cons, List.length_nil]
        congr 1
        have hdm : n / 10 * 10 + n % 10 = n := by omega
        calc (acc * 10 ^ (natToDecAux fuel (n / 10)).length + n / 10) * 10 + n % 10
            = acc * (10 ^ (natToDecAux fuel (n / 10)).length * 10)
                + (n / 10 * 10 + n % 10) := by ring
          _ = acc * 10 ^ ((natToDecAux fuel (n / 10)).length + (0 + 1)) + n := by
              rw [hdm, pow_succ]

theorem decToNat_natToDec (n : Nat) : decToNat? (natToDec n) = some n := by
  unfold decToNat? natToDec
  have hne := natToDecAux_ne_nil (n + 1) n (by omega)
  cases hl : natToDecAux (n + 1) n with
  | nil => exact absurd hl hne
  | cons c cs =>
      simp only []
      have := decToNatAux_natToDecAux (n + 1) n 0 (by omega)
      rw [hl] at this
      rw [this]
      norm_num

/- The JSON document JSON.stringify produces for a ScanResult (whitespace
   aside): an object with an optional TCP and an optional UDP field, each an
   object mapping decimal port keys to status strings, keys in the map
   enumeration order.  Only strings and objects occur, so the AST needs just
   those two forms. -/
inductive Json where
  | str (s : String) : Json
  | obj (fields : List (String × Json)) : Json

def mapToJson (m : List (Nat × String)) : Json :=
  .obj (m.map (fun en => (natToDec en.1, Json.str en.2)))

/- exportResults of src/server/services/portScanner.ts for format JSON,
   modelled as the JSON document it serializes. -/
def toJson (r : ScanResult) : Json :=
  .obj ((match r.TCP with
          | some m => [("TCP", mapToJson m)]
          | none => [])
    ++ (match r.UDP with
          | some m => [("UDP", mapToJson m)]
          | none => []))

/- Reading the (protocol, port, status) triples back out of a parsed JSON
   document: every field of the top object names a protocol, and every
   string-valued field of its object whose key parses as a number gives a
   triple. -/
def entryTriples (proto : String) : Json → List (String × Nat × String)
  | .obj fields =>
      fields.filterMap (fun f =>
        match f.2 with
        | .str st => (decToNat? f.1).map (fun p => (proto, p, st))
        | _ => none)
  | _ => []

def jsonTriples : Json → List (String × Nat × String)
  | .obj fields => (fields.map (fun f => entryTriples f.1 f.2)).flatten
  | _ => []

/- The triples a ScanResult itself holds, TCP block first. -/
def scanTriples (r : ScanResult) : List (String × Nat × String) :=
  (r.TCP.getD []).map (fun en => ("TCP", en.1, en.2))
    ++ (r.UDP.getD []).map (fun en => ("UDP", en.1, en.2))

/- One CSV data row, the template Protocol,port,status of exportResults. -/
def csvRow (proto : String) (p : Nat) (st : String) : String :=
  proto ++ "," ++ natToDec p ++ "," ++ st

def csvRows (r : ScanResult) : List String :=
  (r.TCP.getD []).map (fun en => csvRow "TCP" en.1 en.2)
    ++ (r.UDP.getD []).map (fun en => csvRow "UDP" en.1 en.2)

/- exportResults of src/server/services/portScanner.ts for format CSV: start
   from the header line and append one line per entry of the TCP map, then
   one per entry of the UDP map, in map enumeration order. -/
def exportResultsCSV (r : ScanResult) : String :=
  let afterTCP := (r.TCP.getD []).foldl
    (fun csv en => csv ++ (csvRow "TCP" en.1 en.2 ++ "\n")) "Protocol,Port,Status\n"
  (r.UDP.getD []).foldl
    (fun csv en => csv ++ (csvRow "UDP" en.1 en.2 ++ "\n")) afterTCP

/- Enumerated form of a result map with strictly ascending keys, as a
   JavaScript object with integer-like keys always enumerates. -/
def sortedKeys (m : List (Nat × String)) : Bool := sortedAsc (m.map Prod.fst)

theorem strJoin_cons (x : String) (l : List String) :
    String.join (x :: l) = x ++ String.join l := by
  apply String.ext
  simp

theorem foldl_csv_join (f : Nat × String → String) :
    ∀ (m : List (Nat × String)) (init : String),
      m.foldl (fun csv en => csv ++ (f en ++ "\n")) init
        = init ++ String.join ((m.map f).map (fun row => row ++ "\n")) := by
  intro m
  induction m with
  | nil => intro init; simp [String.join]
  | cons en rest ih =>
      intro init
      simp only [List.foldl_cons, List.map_cons]
      rw [ih (init ++ (f en ++ "\n")), strJoin_cons, String.append_assoc]

theorem entryTriples_mapToJson (proto : String) :
    ∀ m : List (Nat × String),
      entryTriples proto (mapToJson m) = m.map (fun en => (proto, en.1, en.2)) := by
  intro m
  induction m with
  | nil => rfl
  | cons en rest ih =>
      have ih2 := ih
      simp only [mapToJson, entryTriples] at ih2
      simp [mapToJson, entryTriples, List.filterMap_cons, decToNat_natToDec, ih2]

theorem strJoin_append (a b : List String) :
    String.join (a ++ b) = String.join a ++ String.join b := by
  apply String.ext
  simp

theorem filterMap_proto_fst (proto : String) (m : List (Nat × String)) :
    (m.map (fun en => (proto, en.1, en.2))).filterMap
      (fun t => if t.1 = proto then some t.2.1 else none) = m.map Prod.fst := by
  induction m with
  | nil => rfl
  | cons en rest ih =>
      simp only [List.map_cons, List.filterMap_cons, if_pos rfl]
      rw [ih]
      simp

theorem filterMap_proto_other (proto other : String) (hne : other ≠ proto)
    (m : List (Nat × String)) :
    (m.map (fun en => (other, en.1, en.2))).filterMap
      (fun t => if t.1 = proto then some t.2.1 else none) = [] := by
  induction m with
  | nil => rfl
  | cons en rest ih =>
      simp only [List.map_cons, List.filterMap_cons, if_neg hne]
      exact ih

/-- C9: serializing a result map to the JSON document and reading the triples
back reproduces exactly the (protocol, port, status) triples of the map; the
CSV export is the header line Protocol,Port,Status followed by exactly one
data row per (protocol, port) pair — one per triple, TCP block before UDP
block — and within each protocol block the port column is ascending. -/
theorem C9_export_roundtrip (r : ScanResult)
    (hwf : sortedKeys (r.TCP.getD []) = true ∧ sortedKeys (r.UDP.getD []) = true) :
    jsonTriples (toJson r) = scanTriples r
    ∧ exportResultsCSV r = "Protocol,Port,Status\n"
        ++ String.join ((csvRows r).map (fun row => row ++ "\n"))
    ∧ csvRows r = (scanTriples r).map (fun t => csvRow t.1 t.2.1 t.2.2)
    ∧ (csvRows r).length = (r.TCP.getD []).length + (r.UDP.getD []).length
    ∧ sortedAsc ((scanTriples r).filterMap
        (fun t => if t.1 = "TCP" then some t.2.1 else none)) = true
    ∧ sortedAsc ((scanTriples r).filterMap
        (fun t => if t.1 = "UDP" then some t.2.1 else none)) = true := by
  refine ⟨?_, ?_, ?_, ?_, ?_, ?_⟩
  · cases hT : r.TCP <;> cases hU : r.UDP <;>
      simp [toJson, jsonTriples, scanTriples, hT, hU, entryTriples_mapToJson]
  · simp only [exportResultsCSV]
    rw [foldl_csv_join, foldl_csv_join]
    simp only [csvRows, List.map_append]
    rw [strJoin_append, String.append_assoc]
  · simp only [csvRows, scanTriples, List.map_append, List.map_map]
    rfl
  · simp [csvRows]
  · simp only [scanTriples, List.filterMap_append]
    rw [filterMap_proto_fst, filterMap_proto_other "TCP" "UDP" (by decide)]
    simp only [List.append_nil]
    exact hwf.1
  · simp only [scanTriples, List.filterMap_append]
    rw [filterMap_proto_fst, filterMap_proto_other "UDP" "TCP" (by decide)]
    simp only [List.nil_append]
    exact hwf.2

/- A concrete finished result map: two TCP entries, one UDP entry. -/
def sampleResult : ScanResult :=
  { TCP := some [(22, "Open"), (80, "Closed")], UDP := some [(53, "Open|Filtered")] }

/-- C9 witness: the export theorem applied to the sample result map. -/
theorem C9_export_roundtrip_witness :
    jsonTriples (toJson sampleResult) = scanTriples sampleResult
    ∧ exportResultsCSV sampleResult = "Protocol,Port,Status\n"
        ++ String.join ((csvRows sampleResult).map (fun row => row ++ "\n"))
    ∧ csvRows sampleResult = (scanTriples sampleResult).map
        (fun t => csvRow t.1 t.2.1 t.2.2)
    ∧ (csvRows sampleResult).length =
        (sampleResult.TCP.getD []).length + (sampleResult.UDP.getD []).length
    ∧ sortedAsc ((scanTriples sampleResult).filterMap
        (fun t => if t.1 = "TCP" then some t.2.1 else none)) = true
    ∧ sortedAsc ((scanTriples sampleResult).filterMap
        (fun t => if t.1 = "UDP" then some t.2.1 else none)) = true :=
  C9_export_roundtrip sampleResult ⟨by decide, by decide⟩
